import Mathlib

/-!
Verification of the realtime recruiter assistant frontend core.

The definitions below are a shallow embedding of the TypeScript source:
  - the transcript event parser and accumulator of
    src/frontend/src/services/openaiRealtimeWebRTCService.ts (handleMessage,
    the data-channel onmessage handler, connect, disconnect, postSdp),
  - the workflow stage derivation and action invoker of src/frontend/src/App.tsx,
  - the citation reconciler of src/frontend/src/components/panels/RagPanel.tsx.
-/

/-! ## Transcript events and accumulator state -/

/-- State of the transcript accumulator: the fields finalText and partialText
of OpenAIRealtimeWebRTCService (partialText is named pendingText here). -/
structure AccState where
  finalText : String
  pendingText : String
deriving DecidableEq, Repr

/-- A decoded inbound JSON message, keeping only the fields the handler reads:
message.type, message.delta, message.text, message.transcript. A missing field
is none (undefined in JS). -/
structure Msg where
  type : Option String
  delta : Option String
  text : Option String
  transcript : Option String
deriving DecidableEq, Repr

/-- Outbound callback events fired by the service: onTranscript(text, isFinal)
and onFinalUtterance(utterance). -/
inductive TEvent where
  | transcriptEv (text : String) (isFinal : Bool)
  | finalUtteranceEv (text : String)
deriving DecidableEq, Repr

/-- The allow-list of delta event type aliases recognized by handleMessage. -/
def deltaAliases : List String :=
  ["conversation.item.input_audio_transcription.delta",
   "input_audio_transcription.delta",
   "audio.input.transcription.delta",
   "transcription.delta"]

/-- The allow-list of completion event type aliases recognized by handleMessage. -/
def completedAliases : List String :=
  ["conversation.item.input_audio_transcription.completed",
   "input_audio_transcription.completed",
   "audio.input.transcription.completed",
   "transcription.completed"]

/-- JavaScript a || b || two single quotes on optional strings: the first
operand that is a non-empty string, else the empty string (undefined and the
empty string are both falsy). -/
def jsOrStr (a b : Option String) : String :=
  if a.getD "" = "" then b.getD "" else a.getD ""

/-- Embedding of OpenAIRealtimeWebRTCService.handleMessage: folds one decoded
message into the accumulator state and returns the callback events fired, in
firing order. -/
def handleMessage (st : AccState) (m : Msg) : AccState × List TEvent :=
  let ty := m.type.getD ""
  if deltaAliases.contains ty then
    let d := jsOrStr m.delta m.text
    if d = "" then (st, [])
    else
      let p := st.pendingText ++ d
      ({ st with pendingText := p }, [TEvent.transcriptEv (st.finalText ++ p) false])
  else if completedAliases.contains ty then
    let tr := jsOrStr m.transcript m.text
    if tr = "" then (st, [])
    else
      let f := if st.finalText = "" then tr else st.finalText ++ "\n" ++ tr
      ({ finalText := f, pendingText := "" },
       [TEvent.finalUtteranceEv tr, TEvent.transcriptEv f true])
  else (st, [])

/-- Abstract transcript events of the protocol (spec data model): a partial
delta or a final utterance, each carrying text. -/
inductive TranscriptEvent where
  | partialDelta (text : String)
  | finalUtterance (text : String)
deriving DecidableEq, Repr

/-- The accumulator step on an abstract transcript event: handleMessage applied
to a canonical frame of the corresponding recognized type (the last alias of
each family). -/
def accStep (st : AccState) (e : TranscriptEvent) : AccState × List TEvent :=
  match e with
  | TranscriptEvent.partialDelta t =>
      handleMessage st { type := some "transcription.delta", delta := some t,
                         text := none, transcript := none }
  | TranscriptEvent.finalUtterance t =>
      handleMessage st { type := some "transcription.completed", delta := none,
                         text := none, transcript := some t }

/-- Folding a whole sequence of transcript events through the accumulator,
collecting all emitted callback events in order. -/
def accRun (st : AccState) (es : List TranscriptEvent) : AccState × List TEvent :=
  match es with
  | [] => (st, [])
  | e :: rest =>
      let r1 := accStep st e
      let r2 := accRun r1.1 rest
      (r2.1, r1.2 ++ r2.2)

/-- The per-utterance notification texts among a list of emitted events, in
emission order. -/
def utteranceTexts (evs : List TEvent) : List String :=
  evs.filterMap fun e =>
    match e with
    | TEvent.finalUtteranceEv t => some t
    | _ => none

/-! ## Inbound frame handling (data-channel onmessage) -/

/-- An inbound data-channel frame: a text frame, or a binary frame already
decoded to UTF-8 text (the handler decodes ArrayBuffer frames with a
TextDecoder before parsing). -/
inductive Frame where
  | text (s : String)
  | binary (s : String)
deriving DecidableEq, Repr

/-- The string payload handed to the JSON decoder for a frame. -/
def framePayload (f : Frame) : String :=
  match f with
  | Frame.text s => s
  | Frame.binary s => s

/-- Embedding of the data-channel onmessage handler: one JSON decode attempt
(the decoder is a parameter; none models a parse failure, which the handler
swallows), then handleMessage on success. The third component records every
payload handed to the JSON decoder, so decode attempts can be counted. -/
def onMessageFrame (parse : String → Option Msg) (st : AccState) (f : Frame) :
    AccState × List TEvent × List String :=
  match f with
  | Frame.text s =>
      match parse s with
      | some m =>
          let r := handleMessage st m
          (r.1, r.2, [s])
      | none => (st, [], [s])
  | Frame.binary s =>
      match parse s with
      | some m =>
          let r := handleMessage st m
          (r.1, r.2, [s])
      | none => (st, [], [s])

/-! ## Transport session resources, disconnect and connect -/

/-- Which transport-session resources are currently allocated: the data channel,
the peer connection, and the microphone stream (none, or the ids of its audio
tracks). -/
structure SvcResources where
  dataChannel : Bool
  peerConnection : Bool
  micTracks : Option (List Nat)
deriving DecidableEq, Repr

/-- Observable teardown actions performed by disconnect, in order. -/
inductive TAct where
  | closeDataChannel
  | closeTransport
  | stopTrack (t : Nat)
  | onDisconnectSignal
deriving DecidableEq, Repr

/-- Embedding of OpenAIRealtimeWebRTCService.disconnect: closes the data channel
(if any), closes the peer connection (if any), stops every microphone track
(if a stream is held), then nulls all three fields and fires onDisconnect.
Each close or stop on an allocated resource is recorded as an action in
program order. -/
def disconnect (st : SvcResources) : SvcResources × List TAct :=
  let acts :=
    (if st.dataChannel then [TAct.closeDataChannel] else [])
    ++ (if st.peerConnection then [TAct.closeTransport] else [])
    ++ (match st.micTracks with
        | some ts => ts.map TAct.stopTrack
        | none => [])
    ++ [TAct.onDisconnectSignal]
  ({ dataChannel := false, peerConnection := false, micTracks := none }, acts)

/-- Failure modes of the connect path. -/
inductive ConnectError where
  | sessionMintFailed
  | micDenied
  | negotiationFailed
deriving DecidableEq, Repr

/-- The environment a connect attempt runs against: whether the signaling
session mint succeeds, whether getUserMedia succeeds (and the acquired track
ids), and the response bodies of the two possible SDP negotiation POSTs
(the empty string models a rejected request, as postSdp returns the empty
string on a non-ok response). -/
structure ConnectEnv where
  sessionOk : Bool
  micOk : Bool
  micTracks : List Nat
  answer1 : String
  answer2 : String
deriving DecidableEq, Repr

/-- Embedding of the SDP negotiation in createWebRTCConnection: one POST
without the beta header; if its answer is empty, exactly one retry with the
OpenAI-Beta header. Returns the list of attempts made (the withBetaHeader
flag of each postSdp call, in order) and the final answer body. -/
def negotiate (answer1 answer2 : String) : List Bool × String :=
  if answer1 = "" then ([false, true], answer2) else ([false], answer1)

/-- Modelled from the spec: applying the remote answer description on the
transport (RTCPeerConnection.setRemoteDescription, a browser API outside the
repository). Per the external-interface contract, an empty answer body signals
failure, so applying it rejects. -/
def setRemoteDescription (sdp : String) : Except ConnectError Unit :=
  if sdp = "" then Except.error ConnectError.negotiationFailed else Except.ok ()

/-- Embedding of OpenAIRealtimeWebRTCService.connect (createRealtimeSession
followed by createWebRTCConnection): mint the session credential; allocate the
peer connection and data channel; acquire the microphone; negotiate the SDP
answer (with the single retry) and apply it. The catch block in connect only
reports and rethrows the error: no teardown runs on a failure path, so the
returned resource state is whatever was allocated when the failure occurred. -/
def connect (env : ConnectEnv) : SvcResources × Except ConnectError Unit :=
  if env.sessionOk = false then
    (⟨false, false, none⟩, Except.error ConnectError.sessionMintFailed)
  else
    let st1 : SvcResources := ⟨true, true, none⟩
    if env.micOk = false then (st1, Except.error ConnectError.micDenied)
    else
      let st2 : SvcResources := ⟨true, true, some env.micTracks⟩
      match setRemoteDescription (negotiate env.answer1 env.answer2).2 with
      | Except.error e => (st2, Except.error e)
      | Except.ok _ => (st2, Except.ok ())

/-! ## Action invoker (App.executeAction) -/

/-- JavaScript String.prototype.trim: strip leading and trailing whitespace.
Implemented by structural recursion over the character list so that concrete
instances reduce in the kernel. -/
def jsTrim (s : String) : String :=
  ((s.toList.dropWhile Char.isWhitespace).reverse.dropWhile
      Char.isWhitespace).reverse.asString

/-- The fixed action cooldown window, ACTION_COOLDOWN_MS in App.tsx. -/
def ACTION_COOLDOWN_MS : Nat := 2000

/-- Outcome of one executeAction invocation. -/
inductive ExecOutcome where
  | noSession
  | rejectedEmpty
  | rejectedCooldown
  | succeeded (output : String)
  | backendFailed
deriving DecidableEq, Repr

/-- Embedding of App.executeAction. Inputs: whether a session is loaded, the
live transcript snapshot, the current wall-clock time, the current
actionCooldownUntil deadline, and the backend call result (some output on
success, none on failure). Returns the new actionCooldownUntil and the
outcome. On acceptance the deadline is set to now + ACTION_COOLDOWN_MS before
the backend call resolves, and is not rolled back if the call fails. The
scheduled timer that later clears the deadline fires no earlier than the
deadline itself, so it is not part of the decision logic modelled here. -/
def executeAction (hasSession : Bool) (transcript : String) (now cooldownUntil : Nat)
    (backend : Option String) : Nat × ExecOutcome :=
  if hasSession = false then (cooldownUntil, ExecOutcome.noSession)
  else if jsTrim transcript = "" then (cooldownUntil, ExecOutcome.rejectedEmpty)
  else if now < cooldownUntil then (cooldownUntil, ExecOutcome.rejectedCooldown)
  else
    let expiresAt := now + ACTION_COOLDOWN_MS
    match backend with
    | some out => (expiresAt, ExecOutcome.succeeded out)
    | none => (expiresAt, ExecOutcome.backendFailed)

/-- An outcome counts as accepted when the preconditions passed and the
backend call was performed (whether or not it succeeded). -/
def accepted (o : ExecOutcome) : Bool :=
  match o with
  | ExecOutcome.succeeded _ => true
  | ExecOutcome.backendFailed => true
  | _ => false

/-! ## Workflow stage derivation (App auto-advance effect) -/

/-- A session document, keeping the doc_type tag read by the stage derivation. -/
structure SessionDoc where
  doc_type : String
deriving DecidableEq, Repr

/-- The slice of an interview session the stage derivation reads. -/
structure SessionData where
  documents : List SessionDoc
deriving DecidableEq, Repr

/-- The three interview workflow stages. -/
inductive SessionStep where
  | setup
  | record
  | finalize
deriving DecidableEq, Repr

/-- The documents contain at least one JD document. -/
def hasJD (docs : List SessionDoc) : Bool :=
  docs.any fun d => d.doc_type == "JD"

/-- The documents contain at least one CV document. -/
def hasCV (docs : List SessionDoc) : Bool :=
  docs.any fun d => d.doc_type == "CV"

/-- The auto-advance priority in App.tsx: finalize if hasFinalized, else record
if hasRecordingData, else record if hasDocsReady, else setup. -/
def deriveStep (hasFinalized hasRecordingData hasDocsReady : Bool) : SessionStep :=
  if hasFinalized then SessionStep.finalize
  else if hasRecordingData then SessionStep.record
  else if hasDocsReady then SessionStep.record
  else SessionStep.setup

/-- Embedding of the stage facts computed in App: sessionDocs, hasSetup (a user
is signed in and a session is loaded), hasJD, hasCV, hasDocsReady, and the
trimmed-non-empty tests on the two transcripts, combined by deriveStep. -/
def appDerivedStep (userPresent : Bool) (session : Option SessionData)
    (realtimeTranscript diarizedTranscript : String) : SessionStep :=
  let sessionDocs := match session with
    | some s => s.documents
    | none => []
  let hasSetup := userPresent && session.isSome
  let hasDocsReady := hasSetup && hasJD sessionDocs && hasCV sessionDocs
  let hasRecordingData := !(jsTrim realtimeTranscript == "")
  let hasFinalized := !(jsTrim diarizedTranscript == "")
  deriveStep hasFinalized hasRecordingData hasDocsReady

/-- The stage derivation as the spec states it: a pure function of the three
facts (documentsComplete, transcriptNonEmpty, diarizedTranscriptPresent). -/
def stageSpec (documentsComplete transcriptNonEmpty diarizedPresent : Bool) : SessionStep :=
  if diarizedPresent then SessionStep.finalize
  else if transcriptNonEmpty || documentsComplete then SessionStep.record
  else SessionStep.setup

/-- The document list of an optional session (empty when no session is loaded). -/
def docsOf (session : Option SessionData) : List SessionDoc :=
  match session with
  | some s => s.documents
  | none => []

/-! ## Citation reconciler (RagPanel) -/

/-- A retrieved citation, keeping the fields the reconciler reads: the optional
explicit index, the source type and the chunk text. -/
structure Citation where
  source_type : String
  chunk_text : String
  index : Option Nat
deriving DecidableEq, Repr

/-- Numeric value of a list of decimal digit characters. -/
def digitsVal (acc : Nat) (c : Char) : Nat :=
  acc * 10 + (c.toNat - 48)

/-- Single-pass scan for the bracketed markers matched by the global regex
over the answer text: at each position the automaton is outside a candidate
marker (none), just past an opening bracket (some none), or inside a digit run
with the value read so far (some (some n)). A closing bracket directly after a
non-empty digit run emits the number; any other character aborts the candidate
(a fresh opening bracket starts a new one). This matches the left-to-right,
non-overlapping semantics of the regex. -/
def markerScan (st : Option (Option Nat)) (cs : List Char) : List Nat :=
  match cs with
  | [] => []
  | c :: rest =>
    match st with
    | none =>
        if c = '[' then markerScan (some none) rest else markerScan none rest
    | some d =>
        if c = '[' then markerScan (some none) rest
        else if c.isDigit then markerScan (some (some (digitsVal (d.getD 0) c))) rest
        else if c = ']' then
          match d with
          | some n => n :: markerScan none rest
          | none => markerScan none rest
        else markerScan none rest

/-- All numbers cited as bracketed markers in the answer text, in match order,
with repetitions. -/
def scanMarkers (answer : String) : List Nat :=
  markerScan none answer.toList

/-- The distinct set of cited numbers (the Set built in RagPanel), as a
duplicate-free list. -/
def citedNumbers (answer : String) : List Nat :=
  (scanMarkers answer).dedup

/-- Citations paired with their display index: the explicit index when present,
else the 1-based position in the input list (the withIndex map in RagPanel). -/
def withDisplayIndex (cs : List Citation) : List (Citation × Nat) :=
  cs.enum.map fun p => (p.2, p.2.index.getD (p.1 + 1))

/-- Embedding of the citation reconciliation in RagPanel: if the cited-number
set is non-empty, keep only the citations whose display index is cited,
otherwise keep them all. -/
def reconcileCitations (answer : String) (cs : List Citation) : List (Citation × Nat) :=
  let cited := citedNumbers answer
  let withIdx := withDisplayIndex cs
  if cited.isEmpty then withIdx
  else withIdx.filter fun p => cited.contains p.2

/-! ## Helper definitions used by the theorems -/

/-- The finalizedText update of handleMessage: the new utterance when the
accumulated text is empty, else accumulated text, newline, utterance. -/
def appendUtterance (f u : String) : String :=
  if f = "" then u else f ++ "\n" ++ u

/-- Newline-joining a list of strings, as the claim states it. -/
def newlineJoin : List String → String
  | [] => ""
  | [u] => u
  | u :: v :: us => u ++ "\n" ++ newlineJoin (v :: us)

/-- A decoder that reads every payload as a ping control message. -/
def pingParse : String → Option Msg := fun _ => some ⟨some "ping", none, none, none⟩

/-! ## Helper facts about the alias lists -/

/-- The canonical delta alias is in the delta allow-list. -/
lemma mem_delta_canon : "transcription.delta" ∈ deltaAliases := by decide

/-- The canonical completion alias is not in the delta allow-list. -/
lemma not_mem_delta_completed : "transcription.completed" ∉ deltaAliases := by decide

/-- The canonical completion alias is in the completion allow-list. -/
lemma mem_completed_canon : "transcription.completed" ∈ completedAliases := by decide

/-! ## C1: accumulator step behaviour -/

/-- C1: on PartialDelta(text) the text is appended to pendingPartial and the
emitted transcript is finalizedText + pendingPartial with isFinal = false; on
FinalUtterance(text) finalizedText becomes text if it was empty and otherwise
finalizedText + newline + text, pendingPartial resets to empty, finalizedText
is emitted with isFinal = true, and a per-utterance notification carrying
exactly the new utterance text is emitted. -/
theorem C1_accumulator_step (st : AccState) (t : String) (h : t ≠ "") :
    accStep st (TranscriptEvent.partialDelta t)
      = ({ st with pendingText := st.pendingText ++ t },
         [TEvent.transcriptEv (st.finalText ++ (st.pendingText ++ t)) false])
    ∧ accStep st (TranscriptEvent.finalUtterance t)
      = ({ finalText := if st.finalText = "" then t else st.finalText ++ "\n" ++ t,
           pendingText := "" },
         [TEvent.finalUtteranceEv t,
          TEvent.transcriptEv
            (if st.finalText = "" then t else st.finalText ++ "\n" ++ t) true]) := by
  constructor
  · simp [accStep, handleMessage, jsOrStr, mem_delta_canon, h]
  · simp [accStep, handleMessage, jsOrStr, mem_completed_canon,
      not_mem_delta_completed, h]

/-- Witness for C1 at a concrete state and delta. -/
theorem C1_accumulator_step_witness :
    accStep ⟨"F", "p"⟩ (TranscriptEvent.partialDelta "d")
      = (⟨"F", "pd"⟩, [TEvent.transcriptEv "Fpd" false])
    ∧ accStep ⟨"F", "p"⟩ (TranscriptEvent.finalUtterance "u")
      = (⟨"F\nu", ""⟩, [TEvent.finalUtteranceEv "u", TEvent.transcriptEv "F\nu" true]) := by
  have h := C1_accumulator_step ⟨"F", "p"⟩ "d" (by decide)
  have h2 := C1_accumulator_step ⟨"F", "p"⟩ "u" (by decide)
  exact ⟨h.1.trans (by decide), h2.2.trans (by decide)⟩

/-! ## C2: teardown order on disconnect -/

/-- C2 counterexample: with all three resources allocated, the teardown trace
closes the data channel first, then the transport, then stops the track; it is
not the claimed order (stop tracks, then close channel, then close transport). -/
theorem C2_counterexample :
    (disconnect ⟨true, true, some [0]⟩).2
      = [TAct.closeDataChannel, TAct.closeTransport, TAct.stopTrack 0,
         TAct.onDisconnectSignal]
    ∧ (disconnect ⟨true, true, some [0]⟩).2
      ≠ [TAct.stopTrack 0, TAct.closeDataChannel, TAct.closeTransport,
         TAct.onDisconnectSignal] := by decide

/-- C2 amended: in every lifecycle state, shutdown first closes the event
channel, then closes the transport, then stops all local media tracks, and
always clears all three resource fields. -/
theorem C2_teardown_order :
    (∀ ts : List Nat,
      (disconnect ⟨true, true, some ts⟩).2
        = TAct.closeDataChannel :: TAct.closeTransport ::
            (ts.map TAct.stopTrack ++ [TAct.onDisconnectSignal]))
    ∧ (∀ st : SvcResources, (disconnect st).1 = ⟨false, false, none⟩) := by
  constructor
  · intro ts
    simp [disconnect]
  · intro st
    simp [disconnect]

/-! ## C5: negotiation retry policy -/

/-- C5: the first POST carries no beta header; if it is rejected (empty answer
body) exactly one retry is made with the beta-capability header and no third
attempt exists; if the retry is also rejected, applying the (empty) answer
fails and the connect attempt ends in a ConnectError. -/
theorem C5_negotiation_retry (a1 a2 : String) :
    (negotiate a1 a2).1 = (if a1 = "" then [false, true] else [false])
    ∧ (negotiate a1 a2).1.length ≤ 2
    ∧ (a1 = "" → a2 = "" →
        setRemoteDescription (negotiate a1 a2).2
          = Except.error ConnectError.negotiationFailed)
    ∧ (a1 = "" → a2 ≠ "" → setRemoteDescription (negotiate a1 a2).2 = Except.ok ())
    ∧ (a1 ≠ "" → setRemoteDescription (negotiate a1 a2).2 = Except.ok ())
    ∧ (∀ ts : List Nat, a1 = "" → a2 = "" →
        (connect ⟨true, true, ts, a1, a2⟩).2
          = Except.error ConnectError.negotiationFailed) := by
  by_cases h1 : a1 = ""
  · by_cases h2 : a2 = "" <;>
      simp [negotiate, setRemoteDescription, connect, h1, h2]
  · simp [negotiate, setRemoteDescription, connect, h1]

/-- Witness for C5: both attempts rejected at a concrete input. -/
theorem C5_negotiation_retry_witness :
    (negotiate "" "").1 = [false, true]
    ∧ setRemoteDescription (negotiate "" "").2
        = Except.error ConnectError.negotiationFailed
    ∧ (connect ⟨true, true, [0], "", ""⟩).2
        = Except.error ConnectError.negotiationFailed := by
  have h := C5_negotiation_retry "" ""
  exact ⟨h.1.trans (by decide), h.2.2.1 rfl rfl, h.2.2.2.2.2 [0] rfl rfl⟩

/-! ## C6: resource teardown on connect failure -/

/-- C6: evaluating connect at the failing input (credential mint and microphone
acquisition succeed, both SDP negotiation attempts rejected) shows the open
operation fails while the microphone track, the data channel and the transport
all remain allocated: no teardown runs on the failure path, contrary to the
claimed safety property. -/
theorem C6_connect_failure_leaks :
    connect ⟨true, true, [0], "", ""⟩
      = (⟨true, true, some [0]⟩, Except.error ConnectError.negotiationFailed)
    ∧ (connect ⟨true, true, [0], "", ""⟩).1.micTracks ≠ none
    ∧ (connect ⟨true, true, [0], "", ""⟩).1
        ≠ (disconnect (connect ⟨true, true, [0], "", ""⟩).1).1 := by
  refine ⟨rfl, by decide, by decide⟩

/-! ## C3 and C10: action invoker preconditions and cooldown -/

/-- C3: with a session loaded, an empty (or whitespace-only) transcript always
rejects with the empty-transcript reason and changes nothing, regardless of
cooldown; otherwise a call before the cooldown expiry rejects with the
cooldown reason; an accepted call sets the deadline to now + 2000 ms before
the backend result is known, so a further call inside that window rejects
with the cooldown reason and a call at or after the deadline is accepted. -/
theorem C3_invoker_preconditions (t : String) (now cu : Nat) (b : Option String) :
    (jsTrim t = "" → executeAction true t now cu b = (cu, ExecOutcome.rejectedEmpty))
    ∧ (jsTrim t ≠ "" → now < cu →
        executeAction true t now cu b = (cu, ExecOutcome.rejectedCooldown))
    ∧ (jsTrim t ≠ "" → cu ≤ now →
        (executeAction true t now cu b).1 = now + ACTION_COOLDOWN_MS)
    ∧ (jsTrim t ≠ "" → cu ≤ now → accepted (executeAction true t now cu b).2 = true)
    ∧ (jsTrim t ≠ "" → cu ≤ now → ∀ t2 now2 b2, jsTrim t2 ≠ "" →
        now2 < now + ACTION_COOLDOWN_MS →
        (executeAction true t2 now2 (executeAction true t now cu b).1 b2).2
          = ExecOutcome.rejectedCooldown)
    ∧ (jsTrim t ≠ "" → cu ≤ now → ∀ t3 now3 b3, jsTrim t3 ≠ "" →
        now + ACTION_COOLDOWN_MS ≤ now3 →
        accepted (executeAction true t3 now3 (executeAction true t now cu b).1 b3).2
          = true) := by
  refine ⟨?_, ?_, ?_, ?_, ?_, ?_⟩
  · intro h
    simp [executeAction, h]
  · intro h1 h2
    simp [executeAction, h1, h2]
  · intro h1 h2
    have h3 : ¬ now < cu := Nat.not_lt.mpr h2
    cases b <;> simp [executeAction, h1, h3]
  · intro h1 h2
    have h3 : ¬ now < cu := Nat.not_lt.mpr h2
    cases b <;> simp [executeAction, h1, h3, accepted]
  · intro h1 h2 t2 now2 b2 ht2 hlt
    have h3 : ¬ now < cu := Nat.not_lt.mpr h2
    have hfst : (executeAction true t now cu b).1 = now + ACTION_COOLDOWN_MS := by
      cases b <;> simp [executeAction, h1, h3]
    rw [hfst]
    simp [executeAction, ht2, hlt]
  · intro h1 h2 t3 now3 b3 ht3 hge
    have h3 : ¬ now < cu := Nat.not_lt.mpr h2
    have hfst : (executeAction true t now cu b).1 = now + ACTION_COOLDOWN_MS := by
      cases b <;> simp [executeAction, h1, h3]
    rw [hfst]
    have h4 : ¬ now3 < now + ACTION_COOLDOWN_MS := Nat.not_lt.mpr hge
    cases b3 <;> simp [executeAction, ht3, h4, accepted]

/-- Witness for C3 at concrete times and transcripts. -/
theorem C3_invoker_preconditions_witness :
    executeAction true "  " 100 0 (some "out") = (0, ExecOutcome.rejectedEmpty)
    ∧ executeAction true "hi" 100 500 (some "out") = (500, ExecOutcome.rejectedCooldown)
    ∧ (executeAction true "hi" 100 0 (some "out")).1 = 100 + ACTION_COOLDOWN_MS
    ∧ (executeAction true "hi" 900 (executeAction true "hi" 100 0 (some "out")).1
        (some "out")).2 = ExecOutcome.rejectedCooldown
    ∧ accepted (executeAction true "hi" 2100 (executeAction true "hi" 100 0
        (some "out")).1 (some "out")).2 = true := by
  refine ⟨(C3_invoker_preconditions "  " 100 0 (some "out")).1 (by decide),
    (C3_invoker_preconditions "hi" 100 500 (some "out")).2.1 (by decide) (by decide),
    (C3_invoker_preconditions "hi" 100 0 (some "out")).2.2.1 (by decide) (by decide),
    (C3_invoker_preconditions "hi" 100 0 (some "out")).2.2.2.2.1 (by decide) (by decide)
      "hi" 900 (some "out") (by decide) (by decide),
    (C3_invoker_preconditions "hi" 100 0 (some "out")).2.2.2.2.2 (by decide) (by decide)
      "hi" 2100 (some "out") (by decide) (by decide)⟩

/-- C10: when an accepted invocation's backend call fails, the deadline set at
acceptance stays at now + 2000 ms (no rollback), so every further invocation
strictly inside that window rejects with the cooldown reason even though the
failed invocation produced no output. -/
theorem C10_cooldown_not_rolled_back (t : String) (now cu : Nat)
    (h1 : jsTrim t ≠ "") (h2 : cu ≤ now) :
    (executeAction true t now cu none).2 = ExecOutcome.backendFailed
    ∧ (executeAction true t now cu none).1 = now + ACTION_COOLDOWN_MS
    ∧ ∀ t2 now2 b2, jsTrim t2 ≠ "" → now2 < now + ACTION_COOLDOWN_MS →
        (executeAction true t2 now2 (executeAction true t now cu none).1 b2).2
          = ExecOutcome.rejectedCooldown := by
  have h3 : ¬ now < cu := Nat.not_lt.mpr h2
  refine ⟨by simp [executeAction, h1, h3], by simp [executeAction, h1, h3], ?_⟩
  intro t2 now2 b2 ht2 hlt
  have hfst : (executeAction true t now cu none).1 = now + ACTION_COOLDOWN_MS := by
    simp [executeAction, h1, h3]
  rw [hfst]
  simp [executeAction, ht2, hlt]

/-- Witness for C10: failed backend call at time 100, retry at 1500 rejected. -/
theorem C10_cooldown_not_rolled_back_witness :
    (executeAction true "hi" 100 0 none).2 = ExecOutcome.backendFailed
    ∧ (executeAction true "hi" 1500 (executeAction true "hi" 100 0 none).1
        (some "out")).2 = ExecOutcome.rejectedCooldown := by
  refine ⟨(C10_cooldown_not_rolled_back "hi" 100 0 (by decide) (by decide)).1,
    (C10_cooldown_not_rolled_back "hi" 100 0 (by decide) (by decide)).2.2
      "hi" 1500 (some "out") (by decide) (by decide)⟩

/-! ## C9: workflow stage derivation -/

/-- C9: for a signed-in user the derived stage is a pure function of the three
facts: Finalize when the diarized transcript is non-empty, else Record when the
live transcript is non-empty or at least one JD and one CV are uploaded, else
Setup. -/
theorem C9_stage_derivation (session : Option SessionData) (rt dt : String) :
    appDerivedStep true session rt dt
      = stageSpec (hasJD (docsOf session) && hasCV (docsOf session))
          (!(jsTrim rt == "")) (!(jsTrim dt == "")) := by
  have key : ∀ f r d, deriveStep f r d = stageSpec d r f := by decide
  cases session with
  | none => simp [appDerivedStep, docsOf, hasJD, hasCV, deriveStep, stageSpec]
  | some s => simp [appDerivedStep, docsOf, key]

/-! ## C4: citation reconciliation -/

/-- C4: every citation gets a display index equal to its explicit index when
present and otherwise its 1-based input position; the reconciler keeps exactly
the citations whose display index is among the distinct bracketed numbers of
the answer when that set is non-empty, and the whole list, in order, when it
is empty; the distinct set has the same members as the raw marker scan. -/
theorem C4_citation_reconciler (answer : String) (cs : List Citation) :
    (citedNumbers answer = [] → reconcileCitations answer cs = withDisplayIndex cs)
    ∧ (citedNumbers answer ≠ [] →
        reconcileCitations answer cs
          = (withDisplayIndex cs).filter fun p => (citedNumbers answer).contains p.2)
    ∧ (∀ n : Nat, n ∈ citedNumbers answer ↔ n ∈ scanMarkers answer)
    ∧ (∀ i : Nat, ∀ h : i < cs.length,
        (withDisplayIndex cs).get? i
          = some (cs.get ⟨i, h⟩, (cs.get ⟨i, h⟩).index.getD (i + 1))) := by
  refine ⟨?_, ?_, ?_, ?_⟩
  · intro h
    simp [reconcileCitations, h]
  · intro h
    simp [reconcileCitations, List.isEmpty_iff, h]
  · intro n
    simp [citedNumbers, List.mem_dedup]
  · intro i h
    simp [withDisplayIndex, List.getElem?_map, List.getElem?_enum,
      List.getElem?_eq_getElem h]

/-- Witness for C4: the spec example (answer citing 1 and 3 of three implicit
citations keeps exactly the first and third) and an answer with no markers
keeping all citations. -/
theorem C4_citation_reconciler_witness :
    reconcileCitations "See [1] and [3]"
        [⟨"kb", "a", none⟩, ⟨"kb", "b", none⟩, ⟨"kb", "c", none⟩]
      = [(⟨"kb", "a", none⟩, 1), (⟨"kb", "c", none⟩, 3)]
    ∧ reconcileCitations "no markers"
        [⟨"kb", "a", none⟩, ⟨"kb", "b", none⟩, ⟨"kb", "c", none⟩]
      = [(⟨"kb", "a", none⟩, 1), (⟨"kb", "b", none⟩, 2), (⟨"kb", "c", none⟩, 3)] := by
  refine ⟨((C4_citation_reconciler "See [1] and [3]"
      [⟨"kb", "a", none⟩, ⟨"kb", "b", none⟩, ⟨"kb", "c", none⟩]).2.1
        (by decide)).trans (by decide),
    ((C4_citation_reconciler "no markers"
      [⟨"kb", "a", none⟩, ⟨"kb", "b", none⟩, ⟨"kb", "c", none⟩]).1
        (by decide)).trans (by decide)⟩

/-! ## C7: per-utterance notifications reconstruct finalizedText -/

/-- A string of the form f, newline, u is never empty. -/
lemma append_newline_ne_empty (f u : String) : f ++ "\n" ++ u ≠ "" := by
  intro hcontra
  have hlen := congrArg String.length hcontra
  have hn : String.length "\n" = 1 := rfl
  simp [String.length_append, hn] at hlen

/-- Prepending an already-joined head distributes over newlineJoin. -/
lemma newlineJoin_shift (us : List String) (f u : String) :
    newlineJoin ((f ++ "\n" ++ u) :: us) = f ++ "\n" ++ newlineJoin (u :: us) := by
  cases us with
  | nil => rfl
  | cons v vs => simp [newlineJoin, String.append_assoc]

/-- Folding appendUtterance from a non-empty start equals newline-joining with
the start as head. -/
lemma foldl_appendUtterance_ne (us : List String) (f : String) (hf : f ≠ "") :
    us.foldl appendUtterance f = newlineJoin (f :: us) := by
  induction us generalizing f with
  | nil => rfl
  | cons u us ih =>
      have h1 : appendUtterance f u = f ++ "\n" ++ u := by
        simp [appendUtterance, hf]
      calc (u :: us).foldl appendUtterance f
          = us.foldl appendUtterance (appendUtterance f u) := rfl
        _ = us.foldl appendUtterance (f ++ "\n" ++ u) := by rw [h1]
        _ = newlineJoin ((f ++ "\n" ++ u) :: us) :=
            ih (f ++ "\n" ++ u) (append_newline_ne_empty f u)
        _ = f ++ "\n" ++ newlineJoin (u :: us) := newlineJoin_shift us f u
        _ = newlineJoin (f :: u :: us) := rfl

/-- Folding appendUtterance from the empty string over non-empty utterances is
exactly newline-joining them. -/
lemma foldl_appendUtterance_empty (us : List String) (h : ∀ u ∈ us, u ≠ "") :
    us.foldl appendUtterance "" = newlineJoin us := by
  cases us with
  | nil => rfl
  | cons u us =>
      have hu : u ≠ "" := h u (by simp)
      have h0 : appendUtterance "" u = u := by simp [appendUtterance]
      calc (u :: us).foldl appendUtterance ""
          = us.foldl appendUtterance u := by rw [List.foldl_cons, h0]
        _ = newlineJoin (u :: us) := foldl_appendUtterance_ne us u hu

/-- utteranceTexts distributes over list append. -/
lemma utteranceTexts_append (l1 l2 : List TEvent) :
    utteranceTexts (l1 ++ l2) = utteranceTexts l1 ++ utteranceTexts l2 := by
  simp [utteranceTexts, List.filterMap_append]

/-- One accumulator step: finalizedText advances exactly by folding the
per-utterance notifications the step emits, and those are never empty. -/
lemma accStep_finalText (st : AccState) (e : TranscriptEvent) :
    (accStep st e).1.finalText
      = (utteranceTexts (accStep st e).2).foldl appendUtterance st.finalText
    ∧ ∀ u ∈ utteranceTexts (accStep st e).2, u ≠ "" := by
  cases e with
  | partialDelta t =>
      by_cases ht : t = "" <;>
        simp [accStep, handleMessage, jsOrStr, utteranceTexts, mem_delta_canon, ht]
  | finalUtterance t =>
      by_cases ht : t = ""
      · simp [accStep, handleMessage, jsOrStr, utteranceTexts, mem_completed_canon,
          not_mem_delta_completed, ht]
      · simp [accStep, handleMessage, jsOrStr, utteranceTexts, mem_completed_canon,
          not_mem_delta_completed, ht, appendUtterance]

/-- A run of the accumulator: finalizedText equals the fold of all emitted
per-utterance notifications over the starting text, and none of them is empty. -/
lemma accRun_finalText (es : List TranscriptEvent) (st : AccState) :
    (accRun st es).1.finalText
      = (utteranceTexts (accRun st es).2).foldl appendUtterance st.finalText
    ∧ ∀ u ∈ utteranceTexts (accRun st es).2, u ≠ "" := by
  induction es generalizing st with
  | nil => simp [accRun, utteranceTexts]
  | cons e es ih =>
      obtain ⟨h1, h2⟩ := accStep_finalText st e
      obtain ⟨h3, h4⟩ := ih (accStep st e).1
      have hrun1 : (accRun st (e :: es)).1 = (accRun (accStep st e).1 es).1 := by
        simp [accRun]
      have hrun2 : (accRun st (e :: es)).2
          = (accStep st e).2 ++ (accRun (accStep st e).1 es).2 := by
        simp [accRun]
      constructor
      · rw [hrun1, hrun2, h3, h1, utteranceTexts_append, List.foldl_append]
      · rw [hrun2, utteranceTexts_append]
        intro u hu
        rcases List.mem_append.mp hu with hu1 | hu2
        · exact h2 u hu1
        · exact h4 u hu2

/-- C7: within one recording session (the accumulator starting empty), the
per-utterance notifications, newline-joined in emission order, reconstruct
finalizedText exactly. -/
theorem C7_per_utterance_reconstruction (es : List TranscriptEvent) :
    ((accRun ⟨"", ""⟩ es).1).finalText
      = newlineJoin (utteranceTexts (accRun ⟨"", ""⟩ es).2) := by
  obtain ⟨h1, h2⟩ := accRun_finalText es ⟨"", ""⟩
  rw [h1]
  exact foldl_appendUtterance_empty _ h2

/-! ## C8: frame handling robustness -/

/-- A type string recognized as a completion alias is not a delta alias. -/
lemma aliases_disjoint (ty : String) (h1 : ty ∈ completedAliases) :
    ty ∉ deltaAliases := by
  fin_cases h1 <;> decide

/-- A message that is not a recognized event with a non-empty payload leaves
the accumulator unchanged and emits nothing. -/
lemma handleMessage_noop (st : AccState) (m : Msg)
    (hcond : (m.type.getD "" ∉ deltaAliases ∧ m.type.getD "" ∉ completedAliases)
      ∨ (m.type.getD "" ∈ deltaAliases ∧ jsOrStr m.delta m.text = "")
      ∨ (m.type.getD "" ∈ completedAliases ∧ jsOrStr m.transcript m.text = "")) :
    handleMessage st m = (st, []) := by
  rcases hcond with ⟨h1, h2⟩ | ⟨h1, h2⟩ | ⟨h1, h2⟩
  · simp [handleMessage, h1, h2]
  · simp [handleMessage, h1, h2]
  · simp [handleMessage, aliases_disjoint _ h1, h1, h2]

/-- C8: every inbound frame (text or binary) causes exactly one JSON decode
attempt on its payload; a frame the decoder rejects, a frame whose type is in
neither allow-list (such as a ping), a delta event with an empty delta/text
payload, and a completion event with an empty transcript/text payload all
leave the accumulator unchanged and produce no transcript event. -/
theorem C8_frame_handling (parse : String → Option Msg) (st : AccState) (f : Frame) :
    (onMessageFrame parse st f).2.2 = [framePayload f]
    ∧ (parse (framePayload f) = none →
        (onMessageFrame parse st f).1 = st ∧ (onMessageFrame parse st f).2.1 = [])
    ∧ (∀ m : Msg, parse (framePayload f) = some m →
        ((m.type.getD "" ∉ deltaAliases ∧ m.type.getD "" ∉ completedAliases)
          ∨ (m.type.getD "" ∈ deltaAliases ∧ jsOrStr m.delta m.text = "")
          ∨ (m.type.getD "" ∈ completedAliases ∧ jsOrStr m.transcript m.text = "")) →
        (onMessageFrame parse st f).1 = st ∧ (onMessageFrame parse st f).2.1 = []) := by
  refine ⟨?_, ?_, ?_⟩
  · cases f with
    | text s => cases hp : parse s <;> simp [onMessageFrame, framePayload, hp]
    | binary s => cases hp : parse s <;> simp [onMessageFrame, framePayload, hp]
  · intro hnone
    cases f with
    | text s =>
        simp [framePayload] at hnone
        simp [onMessageFrame, hnone]
    | binary s =>
        simp [framePayload] at hnone
        simp [onMessageFrame, hnone]
  · intro m hm hcond
    have hnoop := handleMessage_noop st m hcond
    cases f with
    | text s =>
        simp [framePayload] at hm
        simp [onMessageFrame, hm, hnoop]
    | binary s =>
        simp [framePayload] at hm
        simp [onMessageFrame, hm, hnoop]

/-- Witness for C8: a ping frame is decoded once, produces no transcript event
and leaves the accumulator untouched. -/
theorem C8_frame_handling_witness :
    (onMessageFrame pingParse ⟨"f", "p"⟩ (Frame.text "ping-frame")).1 = ⟨"f", "p"⟩
    ∧ (onMessageFrame pingParse ⟨"f", "p"⟩ (Frame.text "ping-frame")).2.1 = []
    ∧ (onMessageFrame pingParse ⟨"f", "p"⟩ (Frame.text "ping-frame")).2.2
        = ["ping-frame"] := by
  have h := C8_frame_handling pingParse ⟨"f", "p"⟩ (Frame.text "ping-frame")
  have hm : pingParse "ping-frame" = some ⟨some "ping", none, none, none⟩ := rfl
  have hres := h.2.2 ⟨some "ping", none, none, none⟩ hm (Or.inl ⟨by decide, by decide⟩)
  exact ⟨hres.1, hres.2, h.1⟩
